import Mathlib

/-!
Shallow embedding of `src/main.py`: an interactive dashboard that loads an
agricultural survey table, filters it to rice records, applies user filters
(department multiselect, then year / department / municipality selectboxes)
and computes summary aggregations: group sums, rankings, concentration
ratios, a harvest-efficiency table and a Lorenz curve.

Machine floats are modelled by exact rationals together with the IEEE
special values (`PFloat`), so that pandas division by zero
(`0/0 = NaN`, `x/0 = ±inf`, with the result kept in the table) is
represented faithfully.
-/

-- `Rat.add`/`mul`/`inv`/`sub` are irreducible in Batteries; make them
-- reducible again so that concrete witnesses can be settled by `decide`.
unseal Rat.add Rat.mul Rat.inv Rat.sub

/-- One row of the normalized table produced by `load_data`
(canonical column names from the `column_mapping` of the source;
the `AÑO` column is called `anio` here because `ñ` is not a valid
identifier character). -/
structure Row where
  departamento : String
  municipio : String
  anio : Int
  periodo : String
  sistema_productivo : String
  area_sembrada : ℚ
  area_cosechada : ℚ
  produccion : ℚ
  rendimiento : ℚ
deriving DecidableEq

abbrev Table := List Row

/-- Pandas/IEEE float results as they matter here: exact rationals plus
NaN and the two infinities. -/
inductive PFloat where
  | num (q : ℚ)
  | nan
  | inf
  | ninf
deriving DecidableEq

/-- Pandas scalar division: `0/0 = NaN`, `x/0 = ±inf`, otherwise exact. -/
def pdiv (a b : ℚ) : PFloat :=
  if b = 0 then if a = 0 then .nan else if 0 < a then .inf else .ninf
  else .num (a / b)

/-- Multiplication by the positive constant 100 (percentages); NaN and the
infinities are fixed points because 100 is positive. -/
def PFloat.mul100 : PFloat → PFloat
  | .num q => .num (q * 100)
  | x => x

/-- numpy/pandas rounding of a value to the nearest integer,
half to even (the rounding used by `Series.round`). -/
def roundHalfEven (x : ℚ) : ℤ :=
  let f := ⌊x⌋
  if x - f < 1/2 then f
  else if 1/2 < x - f then f + 1
  else if Even f then f else f + 1

/-- Model of `Series.round(2)`: round a float to two decimal places
(NaN and infinities pass through unchanged). -/
def PFloat.round2 : PFloat → PFloat
  | .num q => .num ((roundHalfEven (q * 100) : ℚ) / 100)
  | x => x

def PFloat.isFinite : PFloat → Bool
  | .num _ => true
  | _ => false

/-- Group-by-key-and-sum, the pandas `groupby(key)[val].sum()` pattern.
Pandas orders the resulting index by key; every use relevant to the claims
either re-sorts the result by value or is order-insensitive, so the groups
are listed here in first-occurrence order of their keys. -/
def groupSum {α : Type} [DecidableEq α] (t : Table) (key : Row → α) (val : Row → ℚ) :
    List (α × ℚ) :=
  ((t.map key).dedup).map (fun k =>
    (k, ((t.filter (fun r => decide (key r = k))).map val).sum))

/-- Mean of a column, `Series.mean()`: sum divided by count
(NaN on an empty series, matching pandas). The embedding carries no missing
values, so the pandas NaN-exclusion in means never fires here. -/
def seriesMean (l : List ℚ) : PFloat :=
  pdiv l.sum (l.length : ℚ)

/-! ## Loader (`load_data`, `src/main.py` lines 54–100)

The source file is a semicolon-delimited text whose header names may carry
stray whitespace; cells are read as text here (`Cell.str`), a numeric cell
that pandas already inferred as float is `Cell.num`. Column access
`df[name]` on a missing column raises a pandas `KeyError`; the source has
no schema validation of its own, so `LoadError` has no dedicated
data-format constructor. -/

inductive Cell where
  | str (s : String)
  | num (q : ℚ)
deriving DecidableEq

/-- The raw delimited file: a header row and the data rows (cells by
position, as text). -/
structure RawTable where
  headers : List String
  rows : List (List String)
deriving DecidableEq

/-- A loaded frame: renamed headers plus rows of cells. -/
structure DataFrame where
  headers : List String
  rows : List (List Cell)
deriving DecidableEq

/-- Errors the load step can actually raise: a raw pandas `KeyError` from
looking up a missing column, or a `ValueError` from `astype(float)`. -/
inductive LoadError where
  | keyError (col : String)
  | valueError (cell : String)
deriving DecidableEq

/-- Python `str.strip()`: drop whitespace from both ends (modelled over the
character list so that it evaluates inside the kernel). -/
def pyStrip (s : String) : String :=
  ⟨((s.data.dropWhile Char.isWhitespace).reverse.dropWhile
      Char.isWhitespace).reverse⟩

/-- Replace every occurrence of the character `a` by `b`; the model of
`str.replace` for the one-character patterns used by the source. -/
def replaceChar (a b : Char) (s : String) : String :=
  ⟨s.data.map (fun c => if c = a then b else c)⟩

/-- Python `str.upper()` on the ASCII values compared by the source. -/
def pyUpper (s : String) : String :=
  ⟨s.data.map Char.toUpper⟩

/-- Header cleaning (line 63): `str.strip()` then replacing each newline by a space.
Interior runs of blanks are NOT collapsed. -/
def cleanHeader (s : String) : String :=
  replaceChar '\n' ' ' (pyStrip s)

/-- Column lookup by name: the index of the column, or the pandas
`KeyError` when the name is absent. -/
def colIdx (headers : List String) (name : String) : Except LoadError ℕ :=
  match headers.findIdx? (fun h => h == name) with
  | some i => .ok i
  | none => .error (.keyError name)

/-- Model of `str.strip().str.upper()` as applied to the crop filter columns
(the values compared are plain ASCII). -/
def stripUpper (s : String) : String :=
  pyUpper (pyStrip s)

/-- The `column_mapping` dictionary (lines 72–90). -/
def column_mapping : List (String × String) :=
  [("CÓD.  DEP.", "cod_dep"),
   ("DEPARTAMENTO", "departamento"),
   ("CÓD. MUN.", "cod_mun"),
   ("MUNICIPIO", "municipio"),
   ("GRUPO  DE CULTIVO", "grupo_cultivo"),
   ("SUBGRUPO  DE CULTIVO", "subgrupo_cultivo"),
   ("CULTIVO", "cultivo"),
   ("DESAGREGACIÓN REGIONAL Y/O SISTEMA PRODUCTIVO", "sistema_productivo"),
   ("AÑO", "anio"),
   ("PERIODO", "periodo"),
   ("Área Sembrada (ha)", "area_sembrada"),
   ("Área Cosechada (ha)", "area_cosechada"),
   ("Producción (t)", "produccion"),
   ("Rendimiento (t/ha)", "rendimiento"),
   ("ESTADO FISICO PRODUCCION", "estado_fisico"),
   ("NOMBRE  CIENTIFICO", "nombre_cientifico"),
   ("CICLO DE CULTIVO", "ciclo_cultivo")]

/-- Model of `DataFrame.rename(columns=...)`: a header found in the mapping is
replaced, anything else is silently kept (missing keys are ignored). -/
def renameHeader (h : String) : String :=
  ((column_mapping.lookup h).getD h)

/-- The columns coerced to float (line 95). -/
def numeric_columns : List String :=
  ["area_sembrada", "area_cosechada", "produccion", "rendimiento"]

/-- Value of a string of decimal digits. -/
def natOfDigits (l : List Char) : ℕ :=
  l.foldl (fun n c => n * 10 + (c.toNat - 48)) 0

/-- Split a character list at every occurrence of `sep`
(`str.split` with a one-character separator). -/
def splitOnChar (sep : Char) (l : List Char) : List (List Char) :=
  l.foldr (fun c acc =>
    match acc with
    | [] => [[c]]
    | g :: gs => if c = sep then [] :: (g :: gs) else (c :: g) :: gs) [[]]

/-- Model of `float(s)` on the decimal shapes occurring in the numeric columns:
optional sign, digits, optional fractional part (scientific notation and
the inf/nan spellings do not occur in this data and are not modelled). -/
def parseFloatQ (s : String) : Option ℚ :=
  let l := (pyStrip s).data
  let sb : ℚ × List Char :=
    match l with
    | c :: rest =>
        if c = '-' then (-1, rest)
        else if c = '+' then (1, rest) else (1, l)
    | [] => (1, l)
  match splitOnChar '.' sb.2 with
  | [ip] =>
      if (!ip.isEmpty) && ip.all Char.isDigit then
        some (sb.1 * natOfDigits ip)
      else none
  | [ip, fp] =>
      if ((!ip.isEmpty) || (!fp.isEmpty)) && ip.all Char.isDigit
          && fp.all Char.isDigit then
        some (sb.1 * ((natOfDigits ip : ℚ)
          + (natOfDigits fp : ℚ) / ((10 : ℚ) ^ fp.length)))
      else none
  | _ => none

/-- One cell of the coercion `df[col].str.replace(comma, period).astype(float)`:
comma decimal separators become periods, then the text is parsed;
an unparsable cell raises `ValueError`. -/
def coerceCell (s : String) : Except LoadError Cell :=
  match parseFloatQ (replaceChar ',' '.' s) with
  | some q => .ok (.num q)
  | none => .error (.valueError s)

/-- Coerce column `i` of every row; a cell already numeric is kept
(the source skips columns whose dtype is not object). -/
def coerceColumn (i : ℕ) (rows : List (List Cell)) :
    Except LoadError (List (List Cell)) :=
  rows.mapM (fun r =>
    match r.get? i with
    | some (.str s) => (coerceCell s).map (fun c => r.set i c)
    | some (.num _) => .ok r
    | none => .ok r)

/-- The numeric-coercion loop (lines 96–98): each column name is looked up
(`df[col]` raises `KeyError` when the canonical name is absent after the
rename) and its cells are parsed as floats. -/
def coerceNumericColumns (headers : List String) (rows : List (List Cell)) :
    Except LoadError (List (List Cell)) :=
  numeric_columns.foldlM (fun acc col => do
    let i ← colIdx headers col
    coerceColumn i acc) rows

/-- The loader `load_data` (lines 54–100): clean the header names, keep the rows whose
crop group is CEREALES and crop is ARROZ (the two lookups raise `KeyError`
when those headers are missing), rename headers to canonical identifiers,
and coerce the numeric columns. No header validation happens beyond the
incidental lookups; in particular a missing identifier column such as
`DEPARTAMENTO` or `AÑO` does not stop the load. -/
def load_data (raw : RawTable) : Except LoadError DataFrame := do
  let headers := raw.headers.map cleanHeader
  let grupoIdx ← colIdx headers "GRUPO  DE CULTIVO"
  let cultivoIdx ← colIdx headers "CULTIVO"
  let rows := raw.rows.filter (fun r =>
    stripUpper (r.getD grupoIdx "") == "CEREALES"
      && stripUpper (r.getD cultivoIdx "") == "ARROZ")
  let headers2 := headers.map renameHeader
  let cellRows : List (List Cell) := rows.map (fun r => r.map Cell.str)
  let cellRows2 ← coerceNumericColumns headers2 cellRows
  return ⟨headers2, cellRows2⟩

/-! ## Filter engine (lines 106–206) -/

/-- The sidebar department multiselect (lines 122–126): python truthiness
makes an empty selection skip the `isin` filter entirely, so an empty
multiselect means "no restriction". -/
def df_filtrado_sidebar (df : Table) (sel : List String) : Table :=
  if sel.isEmpty then df
  else df.filter (fun r => sel.contains r.departamento)

/-- The three analysis filters (lines 194–201), applied in source order:
year, then single department, then municipality. `none` models the
`Todos` sentinel. -/
def applyAnalysisFilters (t : Table) (anio : Option Int)
    (dep mun : Option String) : Table :=
  let t1 := match anio with
    | none => t
    | some y => t.filter (fun r => decide (r.anio = y))
  let t2 := match dep with
    | none => t1
    | some d => t1.filter (fun r => decide (r.departamento = d))
  match mun with
  | none => t2
  | some m => t2.filter (fun r => decide (r.municipio = m))

/-- The fully filtered table a render cycle works on. -/
def df_filtrado (df : Table) (sel : List String) (anio : Option Int)
    (dep mun : Option String) : Table :=
  applyAnalysisFilters (df_filtrado_sidebar df sel) anio dep mun

/-! ## Aggregation pipeline -/

/-- The table `produccion_dep` (line 325): production summed by department, sorted
ascending by value for the horizontal ranking bar. -/
def produccion_dep (t : Table) : List (String × ℚ) :=
  List.insertionSort (fun a b => a.2 ≤ b.2)
    (groupSum t Row.departamento Row.produccion)

/-- The table `produccion_dep_desc` (line 341): the same ranking re-sorted
descending by value. -/
def produccion_dep_desc (t : Table) : List (String × ℚ) :=
  List.insertionSort (fun a b => b.2 ≤ a.2) (produccion_dep t)

/-- The top-5 department concentration (line 346):
`head(5).sum() / sum() * 100`, with no guard against a zero denominator
(pandas float division, so an all-zero ranking yields NaN). -/
def top5Share (t : Table) : PFloat :=
  (pdiv (((produccion_dep_desc t).map Prod.snd).take 5).sum
    ((produccion_dep_desc t).map Prod.snd).sum).mul100

/-- One row of the two-key municipality aggregation
(lines 357–369): production and sown area summed, yield averaged, per
(department, municipality) pair, sorted descending by production. -/
structure MuniAgg where
  departamento : String
  municipio : String
  produccion : ℚ
  area_sembrada : ℚ
  rendimiento : PFloat
deriving DecidableEq

/-- The table `produccion_municipios` (lines 357–369). -/
def produccion_municipios (t : Table) : List MuniAgg :=
  List.insertionSort (fun a b => b.produccion ≤ a.produccion)
    (((t.map (fun r => (r.departamento, r.municipio))).dedup).map (fun k =>
      let g := t.filter (fun r =>
        decide (r.departamento = k.1 ∧ r.municipio = k.2))
      { departamento := k.1, municipio := k.2,
        produccion := (g.map Row.produccion).sum,
        area_sembrada := (g.map Row.area_sembrada).sum,
        rendimiento := seriesMean (g.map Row.rendimiento) }))

/-- The scalar `prod_top10` (line 480): production of the ten leading municipality
rows. -/
def prod_top10 (t : Table) : ℚ :=
  (((produccion_municipios t).take 10).map MuniAgg.produccion).sum

/-- The scalar `prod_total` (line 481). -/
def prod_total (t : Table) : ℚ :=
  ((produccion_municipios t).map MuniAgg.produccion).sum

/-- The metric `concentracion` (line 482): the top-10 concentration, guarded so that
a zero total yields 0 instead of a division by zero. -/
def concentracion (t : Table) : ℚ :=
  if 0 < prod_total t then prod_top10 t / prod_total t * 100 else 0

/-- One row of the per-department efficiency table (lines 505–513). -/
structure EffRow where
  departamento : String
  area_sembrada : ℚ
  area_cosechada : ℚ
  produccion : ℚ
  perdida : ℚ
  eficiencia : PFloat
deriving DecidableEq

/-- The table `eficiencia_dept` (lines 505–513): per-department sums, the loss
`sembrada − cosechada`, and the efficiency
`(cosechada / sembrada * 100).round(2)` — computed for EVERY group, with
no exclusion of groups whose sown area is zero: pandas division then
yields NaN (0/0) or ±inf and the row stays in the table. Sorted by loss,
descending. -/
def eficiencia_dept (t : Table) : List EffRow :=
  List.insertionSort (fun a b => b.perdida ≤ a.perdida)
    (((t.map Row.departamento).dedup).map (fun d =>
      let g := t.filter (fun r => decide (r.departamento = d))
      let s := (g.map Row.area_sembrada).sum
      let c := (g.map Row.area_cosechada).sum
      { departamento := d, area_sembrada := s, area_cosechada := c,
        produccion := (g.map Row.produccion).sum,
        perdida := s - c,
        eficiencia := ((pdiv c s).mul100).round2 }))

/-- The ranking `produccion_dep_rank` (line 835): production by department, sorted
ascending by value. -/
def produccion_dep_rank (t : Table) : List (String × ℚ) :=
  List.insertionSort (fun a b => a.2 ≤ b.2)
    (groupSum t Row.departamento Row.produccion)

/-- The Top-10 / Bottom-10 comparison view (lines 837–845): rendered
whenever at least 10 departments exist, taking the first 10 and the last
10 rows of the SAME ascending ranking, with no disjointness check. -/
def comparativa (t : Table) : Option (List (String × ℚ) × List (String × ℚ)) :=
  let r := produccion_dep_rank t
  if 10 ≤ r.length then
    some (r.take 10, r.drop (r.length - 10))
  else none

/-- The ranking `produccion_municipios_conc` (line 884): production summed by
municipality, sorted ascending by value. -/
def produccion_municipios_conc (t : Table) : List (String × ℚ) :=
  List.insertionSort (fun a b => a.2 ≤ b.2)
    (groupSum t Row.municipio Row.produccion)

/-- Running cumulative sums starting from `acc` (`Series.cumsum`). -/
def cumsumFrom (acc : ℚ) : List ℚ → List ℚ
  | [] => []
  | x :: xs => (acc + x) :: cumsumFrom (acc + x) xs

def cumsum (l : List ℚ) : List ℚ :=
  cumsumFrom 0 l

/-- Model of `numpy.linspace` over ℚ: `n` evenly spaced points from `a` to `b`,
endpoint included (`linspace(a, b, 1) = [a]`). -/
def linspace (a b : ℚ) (n : ℕ) : List ℚ :=
  if n ≤ 1 then (List.range n).map (fun _ => a)
  else (List.range n).map (fun i : ℕ => a + (b - a) * (i : ℚ) / ((n - 1 : ℕ) : ℚ))

/-- The cumulative production percentages of the Lorenz curve
(lines 885–886): cumulative sums of the ascending municipality ranking,
divided by the LAST cumulative value (`iloc[-1]`, the total) — pandas
float division, NaN/±inf when the total is zero. -/
def produccion_acum_pct (t : Table) : List PFloat :=
  let acum := cumsum ((produccion_municipios_conc t).map Prod.snd)
  let total := acum.getLastD 0
  acum.map (fun c => (pdiv c total).mul100)

/-- The series `lorenz_data` (lines 887–893): the empirical Lorenz series, pairing a
uniformly spaced 0–100 axis (`linspace(0, 100, N)`, N = number of
municipalities) with the cumulative production percentages. Note the i-th
axis point is `100·i/(N−1)` while the i-th percentage already contains
`i+1` municipalities. -/
def lorenz_data (t : Table) : List (ℚ × PFloat) :=
  (linspace 0 100 (produccion_acum_pct t).length).zip (produccion_acum_pct t)

/-- The perfect-equality reference line (line 897): the two endpoints of
the diagonal. -/
def igualdadPerfecta : List (ℚ × ℚ) :=
  [(0, 0), (100, 100)]

/-- The count `top_20_pct_municipios` (line 916): `int(len * 0.2)`. With IEEE
doubles `int(n * 0.2)` equals `⌊n/5⌋` for every attainable length, so it
is modelled as natural floor division by 5. -/
def top_20_pct_municipios (t : Table) : ℕ :=
  (produccion_municipios_conc t).length / 5

/-- The municipality rows selected by the Top-20% metric
(`tail(top_20_pct_municipios)` of the ascending ranking, line 917). -/
def top20Selected (t : Table) : List (String × ℚ) :=
  (produccion_municipios_conc t).drop
    ((produccion_municipios_conc t).length - top_20_pct_municipios t)

/-- The scalar `produccion_top_20` (line 917). -/
def produccion_top_20 (t : Table) : ℚ :=
  ((top20Selected t).map Prod.snd).sum

/-- The scalar `produccion_total_conc` (line 918). -/
def produccion_total_conc (t : Table) : ℚ :=
  ((produccion_municipios_conc t).map Prod.snd).sum

/-- The metric `concentracion_20` (line 919): guarded against a zero total. -/
def concentracion_20 (t : Table) : ℚ :=
  if 0 < produccion_total_conc t then
    produccion_top_20 t / produccion_total_conc t * 100
  else 0

/-- The generic Top-N concentration of a list of group-sum values: the
pattern of lines 479–482 and 916–919 with the rank cutoff as a parameter
(descending ranking, `sum(top n) / sum(all) × 100`, 0 when the total is
not positive). -/
def concentracionTopNVals (vals : List ℚ) (n : ℕ) : ℚ :=
  let desc := List.insertionSort (fun a b : ℚ => b ≤ a) vals
  if 0 < vals.sum then ((desc.take n).sum / vals.sum) * 100 else 0

/-- Top-N concentration of the group-sum ranking of the filtered table by
a categorical key. -/
def concentracionTopN (t : Table) (key : Row → String) (n : ℕ) : ℚ :=
  concentracionTopNVals ((groupSum t key Row.produccion).map Prod.snd) n

/-- Number of distinct groups of a categorical key. -/
def numGroups (t : Table) (key : Row → String) : ℕ :=
  ((t.map key).dedup).length

/-! ## Render cycle (empty-result short-circuit, lines 129–131 and
204–206) -/

/-- Which streamlit notice reported the empty result: `st.error`
(line 130) or `st.warning` (line 205). Both are recoverable user-facing
notices followed by `st.stop()`. -/
inductive NoticeKind where
  | error
  | warning
deriving DecidableEq

/-- The identical message of both notices. -/
def noDataMsg : String :=
  "No hay datos disponibles con los filtros seleccionados. Por favor, ajusta tus selecciones."

/-- The summary tables and scalar metrics of one render cycle, computed
only after the filtered table was checked to be non-empty. -/
structure Aggregations where
  total_produccion : ℚ
  area_total : ℚ
  rendimiento_promedio : PFloat
  num_municipios : ℕ
  produccionDep : List (String × ℚ)
  liderDepartamento : Option String
  top5 : PFloat
  eficiencia : List EffRow
  concentracionTop10 : ℚ
  comparacion : Option (List (String × ℚ) × List (String × ℚ))
  lorenz : List (ℚ × PFloat)
  concentracion20 : ℚ
deriving DecidableEq

/-- The aggregation fan-out over a (non-empty) filtered table: the headline
metrics (lines 216–240), the department ranking and its leader (argmax,
line 344), the efficiency table, the concentration metrics, the
Top/Bottom comparison and the Lorenz series. -/
def computeAggs (t : Table) : Aggregations where
  total_produccion := (t.map Row.produccion).sum / 1000000
  area_total := (t.map Row.area_sembrada).sum / 1000
  rendimiento_promedio := seriesMean (t.map Row.rendimiento)
  num_municipios := numGroups t Row.municipio
  produccionDep := produccion_dep t
  liderDepartamento := ((produccion_dep_desc t).head?).map Prod.fst
  top5 := top5Share t
  eficiencia := eficiencia_dept t
  concentracionTop10 := concentracion t
  comparacion := comparativa t
  lorenz := lorenz_data t
  concentracion20 := concentracion_20 t

/-- Outcome of one render cycle: either the script halted at a notice
(`st.error`/`st.warning` followed by `st.stop()`), or every chart was
rendered from the computed aggregations. -/
inductive RenderOutcome where
  | halted (kind : NoticeKind) (msg : String)
  | rendered (aggs : Aggregations)
deriving DecidableEq

/-- One render cycle (lines 122–931): apply the sidebar multiselect, stop
with `st.error` if nothing is left (lines 129–131); apply the analysis
filters, stop with `st.warning` if nothing is left (lines 204–206);
otherwise compute every aggregation from the filtered table. -/
def render (df : Table) (sel : List String) (anio : Option Int)
    (dep mun : Option String) : RenderOutcome :=
  let t1 := df_filtrado_sidebar df sel
  if t1.isEmpty then .halted .error noDataMsg
  else
    let t2 := applyAnalysisFilters t1 anio dep mun
    if t2.isEmpty then .halted .warning noDataMsg
    else .rendered (computeAggs t2)

/-! ## Order instances for the value-sort relation, and concrete tables
for the witness runs -/

instance : IsTotal (String × ℚ) (fun a b => a.2 ≤ b.2) :=
  ⟨fun a b => le_total a.2 b.2⟩

instance : IsTrans (String × ℚ) (fun a b => a.2 ≤ b.2) :=
  ⟨fun _ _ _ h h' => le_trans h h'⟩

/-- Rows for concrete runs: one producing municipality per department. -/
def mkRowD (d m : String) (p : ℚ) : Row :=
  { departamento := d, municipio := m, anio := 2020, periodo := "A",
    sistema_productivo := "RIEGO", area_sembrada := 10, area_cosechada := 9,
    produccion := p, rendimiento := 5 }

/-- A concrete run of C1: a one-row table filtered down to nothing by a
year filter halts at the notice. -/
def rowC1 : Row :=
  { departamento := "TOLIMA", municipio := "IBAGUE", anio := 2020,
    periodo := "A", sistema_productivo := "RIEGO",
    area_sembrada := 10, area_cosechada := 9, produccion := 50,
    rendimiento := 5 }

/-- A filtered table with exactly 12 departments. -/
def tablaC9 : Table :=
  [mkRowD "D01" "M01" 1, mkRowD "D02" "M02" 2, mkRowD "D03" "M03" 3,
   mkRowD "D04" "M04" 4, mkRowD "D05" "M05" 5, mkRowD "D06" "M06" 6,
   mkRowD "D07" "M07" 7, mkRowD "D08" "M08" 8, mkRowD "D09" "M09" 9,
   mkRowD "D10" "M10" 10, mkRowD "D11" "M11" 11, mkRowD "D12" "M12" 12]

/-- A filtered table with 3 municipalities and positive production. -/
def tablaC10 : Table :=
  [mkRowD "TOLIMA" "M01" 10, mkRowD "TOLIMA" "M02" 20, mkRowD "HUILA" "M03" 30]

/-- A filtered table with a single department whose sown and harvested
areas are both zero. -/
def tablaC2 : Table :=
  [{ departamento := "CESAR", municipio := "AGUACHICA", anio := 2020,
     periodo := "A", sistema_productivo := "SECANO",
     area_sembrada := 0, area_cosechada := 0, produccion := 0,
     rendimiento := 0 }]

/-- A filtered table that is non-empty but has zero production. -/
def tablaC3 : Table :=
  [mkRowD "TOLIMA" "M01" 0]

/-- A filtered table with two municipalities producing 100 and 300. -/
def tablaC4 : Table :=
  [mkRowD "TOLIMA" "M01" 100, mkRowD "TOLIMA" "M02" 300]

/-- Whether the load step succeeded. -/
def loadOk (raw : RawTable) : Bool :=
  match load_data raw with
  | .ok _ => true
  | .error _ => false

/-- A raw file that misses the expected `DEPARTAMENTO` (and `AÑO`,
`MUNICIPIO`, ...) headers but carries the six columns the loader actually
touches. -/
def rawC8 : RawTable :=
  { headers := ["GRUPO  DE CULTIVO", "CULTIVO", "Área Sembrada (ha)",
      "Área Cosechada (ha)", "Producción (t)", "Rendimiento (t/ha)"],
    rows := [] }

/-- A raw file without the crop-group column. -/
def rawC8e : RawTable :=
  { headers := ["CULTIVO"], rows := [] }

/-! ## Helper lemmas -/

theorem filterSums_cons {α : Type} [DecidableEq α] (key : Row → α) (val : Row → ℚ)
    (r : Row) (t : Table) :
    ∀ (K : List α), K.Nodup → key r ∈ K →
      (K.map (fun k =>
        (((r :: t).filter (fun x => decide (key x = k))).map val).sum)).sum
      = val r + (K.map (fun k =>
          ((t.filter (fun x => decide (key x = k))).map val).sum)).sum := by
  intro K
  induction K with
  | nil => intro _ h; cases h
  | cons k K ih =>
    intro hnd hmem
    by_cases h : key r = k
    · have hK : key r ∉ K := by
        intro hc
        exact (List.nodup_cons.mp hnd).1 (h ▸ hc)
      have hmapK : K.map (fun k' =>
            (((r :: t).filter (fun x => decide (key x = k'))).map val).sum)
          = K.map (fun k' =>
            ((t.filter (fun x => decide (key x = k'))).map val).sum) := by
        apply List.map_congr_left
        intro k' hk'
        have hne : key r ≠ k' := fun he => hK (he ▸ hk')
        rw [List.filter_cons_of_neg (by simp [hne])]
      have hfilter : (r :: t).filter (fun x => decide (key x = k))
          = r :: t.filter (fun x => decide (key x = k)) :=
        List.filter_cons_of_pos (by simp [h])
      rw [List.map_cons, List.sum_cons, List.map_cons, List.sum_cons,
        hmapK, hfilter, List.map_cons, List.sum_cons]
      ring
    · have hmem' : key r ∈ K := by
        cases List.mem_cons.mp hmem with
        | inl he => exact absurd he h
        | inr hm => exact hm
      have hhead : (r :: t).filter (fun x => decide (key x = k))
          = t.filter (fun x => decide (key x = k)) :=
        List.filter_cons_of_neg (by simp [h])
      rw [List.map_cons, List.sum_cons, List.map_cons, List.sum_cons,
        hhead, ih (List.nodup_cons.mp hnd).2 hmem']
      ring

theorem filterSums_total {α : Type} [DecidableEq α] (key : Row → α) (val : Row → ℚ) :
    ∀ (t : Table) (K : List α), K.Nodup → (∀ r ∈ t, key r ∈ K) →
      (K.map (fun k =>
        ((t.filter (fun x => decide (key x = k))).map val).sum)).sum
      = (t.map val).sum := by
  intro t
  induction t with
  | nil =>
    intro K _ _
    simp
  | cons r t ih =>
    intro K hnd hcov
    rw [filterSums_cons key val r t K hnd (hcov r (List.mem_cons_self r t)),
      ih K hnd (fun x hx => hcov x (List.mem_cons_of_mem r hx))]
    simp

theorem groupSum_snd_sum {α : Type} [DecidableEq α] (t : Table)
    (key : Row → α) (val : Row → ℚ) :
    ((groupSum t key val).map Prod.snd).sum = (t.map val).sum := by
  unfold groupSum
  rw [List.map_map]
  have : (Prod.snd ∘ fun k =>
      (k, ((t.filter (fun x => decide (key x = k))).map val).sum))
      = fun k => ((t.filter (fun x => decide (key x = k))).map val).sum := rfl
  rw [this]
  exact filterSums_total key val t _ (List.nodup_dedup _)
    (fun r hr => List.mem_dedup.mpr (List.mem_map_of_mem key hr))

/-- C5. For every filtered table and numeric measure, the sum over all
groups of the group-sum aggregation by a categorical key equals the
ungrouped sum of the same measure over the same table (conservation law);
production summed by department, `produccion_dep`, against
`total_produccion` is the instance of the sources. -/
theorem c5_group_sum_conservation {α : Type} [DecidableEq α] (t : Table)
    (key : Row → α) (val : Row → ℚ) :
    ((groupSum t key val).map Prod.snd).sum = (t.map val).sum :=
  groupSum_snd_sum t key val

/-- C7. Filter composition is conjunctive (logical AND) across all active
filters, and an empty department multiselect is treated as no restriction:
the sidebar stage returns the full normalized table unchanged under an
empty selection, rather than matching nothing. -/
theorem c7_conjunctive_filters (df : Table) (sel : List String)
    (anio : Option Int) (dep mun : Option String) :
    df_filtrado df sel anio dep mun = df.filter (fun r =>
      (((sel.isEmpty || sel.contains r.departamento)
        && (match anio with | none => true | some y => decide (r.anio = y)))
        && (match dep with | none => true | some d => decide (r.departamento = d)))
        && (match mun with | none => true | some m => decide (r.municipio = m)))
    ∧ df_filtrado_sidebar df [] = df := by
  constructor
  · unfold df_filtrado applyAnalysisFilters df_filtrado_sidebar
    cases hse : sel.isEmpty <;>
      cases anio <;> cases dep <;> cases mun <;>
      simp only [hse] <;>
      simp [List.filter_filter] <;>
      first
        | rfl
        | (apply List.filter_congr; intro r _;
           simp [Bool.and_comm, Bool.and_left_comm, Bool.and_assoc])
  · simp [df_filtrado_sidebar]

/-- C1. Whenever the conjunction of the active filter predicates leaves an
empty table, the render cycle halts at a recoverable user-facing notice
(`st.error`/`st.warning` followed by `st.stop()`), and the aggregation
fan-out (`computeAggs`, containing every metric, group-sum, argmax and
ranking) is reached only with a non-empty filtered table. -/
theorem c1_empty_filter_short_circuit (df : Table) (sel : List String)
    (anio : Option Int) (dep mun : Option String) :
    (df_filtrado df sel anio dep mun = [] →
      ∃ k, render df sel anio dep mun = .halted k noDataMsg) ∧
    (∀ a, render df sel anio dep mun = .rendered a →
      df_filtrado df sel anio dep mun ≠ []
        ∧ a = computeAggs (df_filtrado df sel anio dep mun)) := by
  unfold render df_filtrado
  cases h1 : (df_filtrado_sidebar df sel).isEmpty with
  | true =>
    constructor
    · intro _
      exact ⟨.error, by simp [h1]⟩
    · intro a ha
      simp [h1] at ha
  | false =>
    cases h2 : (applyAnalysisFilters (df_filtrado_sidebar df sel) anio dep mun).isEmpty with
    | true =>
      constructor
      · intro _
        exact ⟨.warning, by simp [h1, h2]⟩
      · intro a ha
        simp [h1, h2] at ha
    | false =>
      constructor
      · intro hempty
        rw [hempty] at h2
        simp at h2
      · intro a ha
        simp [h1, h2] at ha
        refine ⟨?_, ha.symm⟩
        intro hempty
        rw [hempty] at h2
        simp at h2

theorem c1_witness :
    ∃ k, render [rowC1] [] (some 2021) none none = .halted k noDataMsg :=
  (c1_empty_filter_short_circuit [rowC1] [] (some 2021) none none).1 (by decide)

/-- C9. With at least 10 but fewer than 20 distinct departments, the
comparison view is rendered (its guard only checks `10 ≤ length`) and its
Bottom-10 and Top-10 lists are the first and the last 10 rows of the SAME
ascending ranking, so the row at position `length − 10` — hence its
department — appears in both lists. -/
theorem c9_top_bottom_overlap (t : Table)
    (h10 : 10 ≤ (produccion_dep_rank t).length)
    (h20 : (produccion_dep_rank t).length < 20) :
    comparativa t = some ((produccion_dep_rank t).take 10,
      (produccion_dep_rank t).drop ((produccion_dep_rank t).length - 10)) ∧
    ∃ d, d ∈ ((produccion_dep_rank t).take 10).map Prod.fst ∧
      d ∈ ((produccion_dep_rank t).drop
        ((produccion_dep_rank t).length - 10)).map Prod.fst := by
  have hcomp : comparativa t = some ((produccion_dep_rank t).take 10,
      (produccion_dep_rank t).drop ((produccion_dep_rank t).length - 10)) := by
    unfold comparativa
    simp [h10]
  refine ⟨hcomp, ?_⟩
  have hidx : (produccion_dep_rank t).length - 10 < (produccion_dep_rank t).length := by
    omega
  refine ⟨((produccion_dep_rank t).get ⟨(produccion_dep_rank t).length - 10, hidx⟩).1,
    ?_, ?_⟩
  · apply List.mem_map_of_mem
    have hlt10 : (produccion_dep_rank t).length - 10 < 10 := by omega
    have hlen : (produccion_dep_rank t).length - 10
        < ((produccion_dep_rank t).take 10).length := by
      rw [List.length_take]
      omega
    have hget : ((produccion_dep_rank t).take 10).get
        ⟨(produccion_dep_rank t).length - 10, hlen⟩
        = (produccion_dep_rank t).get ⟨(produccion_dep_rank t).length - 10, hidx⟩ := by
      simp [List.getElem_take]
    rw [← hget]
    exact List.get_mem _ _ _
  · apply List.mem_map_of_mem
    have hlen : 0 < ((produccion_dep_rank t).drop
        ((produccion_dep_rank t).length - 10)).length := by
      rw [List.length_drop]
      omega
    have hget : ((produccion_dep_rank t).drop
        ((produccion_dep_rank t).length - 10)).get ⟨0, hlen⟩
        = (produccion_dep_rank t).get ⟨(produccion_dep_rank t).length - 10, hidx⟩ := by
      simp [List.getElem_drop]
    rw [← hget]
    exact List.get_mem _ _ _

theorem c9_witness :
    comparativa tablaC9 = some ((produccion_dep_rank tablaC9).take 10,
      (produccion_dep_rank tablaC9).drop ((produccion_dep_rank tablaC9).length - 10)) :=
  (c9_top_bottom_overlap tablaC9 (by decide) (by decide)).1

/-- C10. The Top-20% municipality metric selects exactly
`⌊0.2 · (number of distinct municipalities)⌋` rows from the top of the
ascending production ranking; with fewer than 5 distinct municipalities it
selects none, and the reported concentration is 0% even when the total
production is positive. -/
theorem c10_top20pct_floor (t : Table) :
    (top20Selected t).length = numGroups t Row.municipio / 5 ∧
    (numGroups t Row.municipio < 5 → 0 < produccion_total_conc t →
      top_20_pct_municipios t = 0 ∧ concentracion_20 t = 0) := by
  have hlen : (produccion_municipios_conc t).length = numGroups t Row.municipio := by
    unfold produccion_municipios_conc numGroups groupSum
    rw [List.length_insertionSort, List.length_map]
  have hk : top_20_pct_municipios t = numGroups t Row.municipio / 5 := by
    unfold top_20_pct_municipios
    rw [hlen]
  constructor
  · unfold top20Selected
    rw [List.length_drop, hlen, hk]
    have : numGroups t Row.municipio / 5 ≤ numGroups t Row.municipio :=
      Nat.div_le_self _ _
    omega
  · intro h5 hpos
    have hk0 : top_20_pct_municipios t = 0 := by
      rw [hk]
      omega
    refine ⟨hk0, ?_⟩
    have hsel : top20Selected t = [] := by
      unfold top20Selected
      rw [hk0, Nat.sub_zero, List.drop_length]
    unfold concentracion_20
    rw [if_pos hpos]
    unfold produccion_top_20
    rw [hsel]
    simp

theorem c10_witness :
    top_20_pct_municipios tablaC10 = 0 ∧ concentracion_20 tablaC10 = 0 :=
  (c10_top20pct_floor tablaC10).2 (by decide) (by decide)

/-- C2 counterexample. On a table whose only group has sown = 0, the
efficiency table does NOT exclude that group and does NOT keep only finite
values: the group stays, carrying NaN. -/
theorem c2_counterexample :
    ¬ (∀ e ∈ eficiencia_dept tablaC2,
        e.area_sembrada ≠ 0 ∧ e.eficiencia.isFinite = true) := by
  decide

/-- C2 amended. Groups with zero summed sown area are not excluded from
the efficiency table: every department of the filtered table appears in it
(first conjunct), and a group whose sown-area sum is zero carries a
non-finite efficiency value — NaN for 0/0 or ±inf — rather than being
dropped, reported as 0, or raising an error (second conjunct; the total
function itself is the no-crash statement). -/
theorem c2_amended (t : Table) :
    ((eficiencia_dept t).map EffRow.departamento).Perm
      ((t.map Row.departamento).dedup) ∧
    ∀ e ∈ eficiencia_dept t, e.area_sembrada = 0 →
      e.eficiencia.isFinite = false := by
  constructor
  · unfold eficiencia_dept
    refine ((List.perm_insertionSort _ _).map EffRow.departamento).trans ?_
    rw [List.map_map]
    apply List.Perm.of_eq
    apply List.map_id''
    intro d
    rfl
  · intro e he hs
    unfold eficiencia_dept at he
    rw [List.mem_insertionSort] at he
    rcases List.mem_map.mp he with ⟨d, _, rfl⟩
    simp only at hs ⊢
    rw [hs]
    unfold pdiv
    rw [if_pos rfl]
    by_cases hc : ((t.filter (fun r => decide (r.departamento = d))).map
        Row.area_cosechada).sum = 0
    · rw [if_pos hc]
      rfl
    · rw [if_neg hc]
      by_cases hcp : 0 < ((t.filter (fun r => decide (r.departamento = d))).map
          Row.area_cosechada).sum
      · rw [if_pos hcp]
        rfl
      · rw [if_neg hcp]
        rfl

theorem c2_witness :
    (⟨"CESAR", 0, 0, 0, 0, PFloat.nan⟩ : EffRow).eficiencia.isFinite = false :=
  (c2_amended tablaC2).2 ⟨"CESAR", 0, 0, 0, 0, PFloat.nan⟩ (by decide) (by decide)

theorem list_sum_zero_of_nonneg :
    ∀ (l : List ℚ), (∀ x ∈ l, 0 ≤ x) → l.sum = 0 → ∀ x ∈ l, x = 0 := by
  intro l
  induction l with
  | nil => intro _ _ x hx; cases hx
  | cons a l ih =>
    intro hpos hsum x hx
    have ha : 0 ≤ a := hpos a (List.mem_cons_self a l)
    have hl : 0 ≤ l.sum :=
      List.sum_nonneg (fun y hy => hpos y (List.mem_cons_of_mem a hy))
    rw [List.sum_cons] at hsum
    have ha0 : a = 0 := by linarith
    have hl0 : l.sum = 0 := by linarith
    cases List.mem_cons.mp hx with
    | inl he => exact he ▸ ha0
    | inr hm => exact ih (fun y hy => hpos y (List.mem_cons_of_mem a hy)) hl0 x hm

theorem groupSum_snd_nonneg {α : Type} [DecidableEq α] (t : Table)
    (key : Row → α) (val : Row → ℚ) (hpos : ∀ r ∈ t, 0 ≤ val r) :
    ∀ v ∈ (groupSum t key val).map Prod.snd, 0 ≤ v := by
  intro v hv
  rcases List.mem_map.mp hv with ⟨p, hp, rfl⟩
  unfold groupSum at hp
  rcases List.mem_map.mp hp with ⟨k, _, rfl⟩
  apply List.sum_nonneg
  intro x hx
  rcases List.mem_map.mp hx with ⟨r, hr, rfl⟩
  exact hpos r (List.mem_filter.mp hr).1

theorem groupSum_snd_zero {α : Type} [DecidableEq α] (t : Table)
    (key : Row → α) (val : Row → ℚ) (hrow : ∀ r ∈ t, val r = 0) :
    ∀ v ∈ (groupSum t key val).map Prod.snd, v = 0 := by
  intro v hv
  rcases List.mem_map.mp hv with ⟨p, hp, rfl⟩
  unfold groupSum at hp
  rcases List.mem_map.mp hp with ⟨k, _, rfl⟩
  apply List.sum_eq_zero
  intro x hx
  rcases List.mem_map.mp hx with ⟨r, hr, rfl⟩
  exact hrow r (List.mem_filter.mp hr).1

/-- C3 counterexample. On a non-empty table with an all-zero production
column, the guarded municipality concentrations do return 0, but the top-5
department share — computed with no zero-denominator guard — is NaN, not
0%. -/
theorem c3_counterexample :
    (tablaC3.map Row.produccion).sum = 0 ∧ tablaC3 ≠ [] ∧
    ¬ (top5Share tablaC3 = PFloat.num 0 ∧ concentracion tablaC3 = 0 ∧
        concentracion_20 tablaC3 = 0) := by
  decide

/-- C3 amended. The two municipality concentrations (Top-10 of the
two-key ranking, Top-20% of the one-key ranking) guard the zero
denominator and evaluate to 0%; the top-5 department share has no guard
and evaluates to NaN (0/0) on an all-zero production column — no error is
raised, but the value is not 0%. -/
theorem c3_amended (t : Table) (hpos : ∀ r ∈ t, 0 ≤ r.produccion)
    (h0 : (t.map Row.produccion).sum = 0) :
    top5Share t = PFloat.nan ∧ concentracion t = 0 ∧ concentracion_20 t = 0 := by
  have hrow : ∀ r ∈ t, r.produccion = 0 := by
    intro r hr
    exact list_sum_zero_of_nonneg (t.map Row.produccion)
      (fun x hx => by
        rcases List.mem_map.mp hx with ⟨r', hr', rfl⟩
        exact hpos r' hr')
      h0 r.produccion (List.mem_map_of_mem Row.produccion hr)
  refine ⟨?_, ?_, ?_⟩
  · -- the unguarded top-5 department share is 0/0 = NaN
    have hzero : ∀ v ∈ (produccion_dep_desc t).map Prod.snd, v = 0 := by
      intro v hv
      rcases List.mem_map.mp hv with ⟨p, hp, rfl⟩
      unfold produccion_dep_desc produccion_dep at hp
      rw [List.mem_insertionSort, List.mem_insertionSort] at hp
      exact groupSum_snd_zero t Row.departamento Row.produccion hrow p.2
        (List.mem_map_of_mem Prod.snd hp)
    have htake : ((((produccion_dep_desc t).map Prod.snd).take 5).sum) = 0 :=
      List.sum_eq_zero (fun x hx => hzero x (List.mem_of_mem_take hx))
    have htot : (((produccion_dep_desc t).map Prod.snd).sum) = 0 :=
      List.sum_eq_zero hzero
    unfold top5Share
    rw [htake, htot]
    rfl
  · -- the Top-10 concentration is guarded: total = 0 disables the branch
    have htot : prod_total t = 0 := by
      unfold prod_total
      apply List.sum_eq_zero
      intro x hx
      rcases List.mem_map.mp hx with ⟨e, he, rfl⟩
      unfold produccion_municipios at he
      rw [List.mem_insertionSort] at he
      rcases List.mem_map.mp he with ⟨k, _, rfl⟩
      apply List.sum_eq_zero
      intro y hy
      rcases List.mem_map.mp hy with ⟨r, hr, rfl⟩
      exact hrow r (List.mem_filter.mp hr).1
    unfold concentracion
    rw [htot]
    simp
  · -- the Top-20% concentration is guarded likewise
    have htot : produccion_total_conc t = 0 := by
      unfold produccion_total_conc
      apply List.sum_eq_zero
      intro x hx
      rcases List.mem_map.mp hx with ⟨p, hp, rfl⟩
      unfold produccion_municipios_conc at hp
      rw [List.mem_insertionSort] at hp
      exact groupSum_snd_zero t Row.municipio Row.produccion hrow p.2
        (List.mem_map_of_mem Prod.snd hp)
    unfold concentracion_20
    rw [htot]
    simp

theorem c3_witness :
    top5Share tablaC3 = PFloat.nan :=
  (c3_amended tablaC3 (by decide) (by decide)).1

theorem sum_take_mono (l : List ℚ) (hpos : ∀ x ∈ l, 0 ≤ x)
    {m n : ℕ} (hmn : m ≤ n) :
    (l.take m).sum ≤ (l.take n).sum := by
  have hsplit : l.take n = (l.take n).take m ++ (l.take n).drop m :=
    (List.take_append_drop m (l.take n)).symm
  have htake : (l.take n).take m = l.take m := by
    rw [List.take_take]
    congr 1
    omega
  calc (l.take m).sum
      ≤ (l.take m).sum + ((l.take n).drop m).sum := by
        have : 0 ≤ ((l.take n).drop m).sum :=
          List.sum_nonneg (fun x hx =>
            hpos x (List.mem_of_mem_take (List.mem_of_mem_drop hx)))
        linarith
    _ = (l.take n).sum := by
        conv_rhs => rw [hsplit]
        rw [List.sum_append, htake]

/-- C6 counterexample. A one-group ranking whose only value is 0 is
non-empty, yet the Top-N concentration at N = (number of groups) is the
guarded 0%, not 100%. -/
theorem c6_counterexample :
    groupSum tablaC3 Row.municipio Row.produccion ≠ [] ∧
    numGroups tablaC3 Row.municipio = 1 ∧
    concentracionTopN tablaC3 Row.municipio (numGroups tablaC3 Row.municipio) = 0 ∧
    concentracionTopN tablaC3 Row.municipio (numGroups tablaC3 Row.municipio) ≠ 100 := by
  decide

/-- C6 amended. For nonnegative production values the Top-N concentration
is monotonically non-decreasing in N, and it equals 100% at N = (number of
groups) PROVIDED the ranking total is positive; when the total is zero the
zero-denominator guard makes the concentration 0% for every N (including
N = number of groups), so the original claim holds only on rankings with a
positive total. -/
theorem c6_amended (t : Table) (key : Row → String)
    (hpos : ∀ r ∈ t, 0 ≤ r.produccion) :
    (∀ m n, m ≤ n → concentracionTopN t key m ≤ concentracionTopN t key n) ∧
    (0 < ((groupSum t key Row.produccion).map Prod.snd).sum →
      concentracionTopN t key (numGroups t key) = 100) ∧
    (((groupSum t key Row.produccion).map Prod.snd).sum = 0 →
      ∀ n, concentracionTopN t key n = 0) := by
  have hvals : ∀ v ∈ List.insertionSort (fun a b : ℚ => b ≤ a)
      ((groupSum t key Row.produccion).map Prod.snd), 0 ≤ v := by
    intro v hv
    rw [List.mem_insertionSort] at hv
    exact groupSum_snd_nonneg t key Row.produccion hpos v hv
  refine ⟨?_, ?_, ?_⟩
  · intro m n hmn
    unfold concentracionTopN concentracionTopNVals
    by_cases htot : 0 < ((groupSum t key Row.produccion).map Prod.snd).sum
    · rw [if_pos htot, if_pos htot]
      have hle := sum_take_mono _ hvals hmn
      gcongr
    · rw [if_neg htot, if_neg htot]
  · intro htot
    unfold concentracionTopN concentracionTopNVals
    rw [if_pos htot]
    have hlen : numGroups t key = (List.insertionSort (fun a b : ℚ => b ≤ a)
        ((groupSum t key Row.produccion).map Prod.snd)).length := by
      rw [List.length_insertionSort, List.length_map]
      unfold groupSum numGroups
      rw [List.length_map]
    rw [hlen, List.take_length]
    have hsum : (List.insertionSort (fun a b : ℚ => b ≤ a)
        ((groupSum t key Row.produccion).map Prod.snd)).sum
        = ((groupSum t key Row.produccion).map Prod.snd).sum :=
      (List.perm_insertionSort _ _).sum_eq
    rw [hsum, div_self (ne_of_gt htot)]
    norm_num
  · intro htot n
    unfold concentracionTopN concentracionTopNVals
    rw [htot]
    simp

theorem c6_witness :
    concentracionTopN tablaC10 Row.municipio (numGroups tablaC10 Row.municipio) = 100 :=
  (c6_amended tablaC10 Row.municipio (by decide)).2.1 (by decide)

/-- C8 counterexample. `DEPARTAMENTO` is one of the expected headers of
the schema, it is absent from `rawC8` after normalization, and yet the
load step succeeds — it neither raises a `DataFormatError` (no such error
exists in the code) nor aborts at all: the failure would only surface
later, outside the load step. -/
theorem c8_counterexample :
    "DEPARTAMENTO" ∈ column_mapping.map Prod.fst ∧
    "DEPARTAMENTO" ∉ rawC8.headers.map cleanHeader ∧
    loadOk rawC8 = true := by
  decide

/-- C8 amended. The loader performs no schema validation: a missing
`GRUPO  DE CULTIVO` header makes the load step fail with the raw pandas
`KeyError` naming that column (not a dedicated `DataFormatError` with a
clear message), while a missing identifier header such as `DEPARTAMENTO`
or `AÑO` does not abort the load step at all (see the counterexample). -/
theorem c8_amended (raw : RawTable)
    (h : "GRUPO  DE CULTIVO" ∉ raw.headers.map cleanHeader) :
    load_data raw = .error (.keyError "GRUPO  DE CULTIVO") := by
  have hidx : colIdx (raw.headers.map cleanHeader) "GRUPO  DE CULTIVO"
      = .error (.keyError "GRUPO  DE CULTIVO") := by
    unfold colIdx
    have hnone : (raw.headers.map cleanHeader).findIdx?
        (fun h' => h' == "GRUPO  DE CULTIVO") = none := by
      rw [List.findIdx?_eq_none_iff]
      intro x hx
      by_contra hb
      rw [Bool.not_eq_false, beq_iff_eq] at hb
      exact h (hb ▸ hx)
    rw [hnone]
  unfold load_data
  simp only [hidx]
  rfl

theorem c8_witness :
    load_data rawC8e = .error (.keyError "GRUPO  DE CULTIVO") :=
  c8_amended rawC8e (by decide)

theorem cumsumFrom_length : ∀ (l : List ℚ) (acc : ℚ),
    (cumsumFrom acc l).length = l.length := by
  intro l
  induction l with
  | nil => intro acc; rfl
  | cons x xs ih => intro acc; simp [cumsumFrom, ih]

theorem cumsum_length (l : List ℚ) : (cumsum l).length = l.length :=
  cumsumFrom_length l 0

theorem cumsumFrom_get : ∀ (l : List ℚ) (acc : ℚ) (i : ℕ)
    (h : i < (cumsumFrom acc l).length),
    (cumsumFrom acc l).get ⟨i, h⟩ = acc + (l.take (i + 1)).sum := by
  intro l
  induction l with
  | nil => intro acc i h; simp [cumsumFrom] at h
  | cons x xs ih =>
    intro acc i h
    cases i with
    | zero => simp [cumsumFrom]
    | succ i =>
      have h' : i < (cumsumFrom (acc + x) xs).length := by
        simpa [cumsumFrom] using h
      have : (cumsumFrom acc (x :: xs)).get ⟨i + 1, h⟩
          = (cumsumFrom (acc + x) xs).get ⟨i, h'⟩ := rfl
      rw [this, ih, List.take_succ_cons, List.sum_cons]
      ring

theorem cumsumFrom_getLastD : ∀ (l : List ℚ) (acc d : ℚ), l ≠ [] →
    (cumsumFrom acc l).getLastD d = acc + l.sum := by
  intro l
  induction l with
  | nil => intro acc d h; exact absurd rfl h
  | cons x xs ih =>
    intro acc d _
    by_cases hxs : xs = []
    · subst hxs
      simp [cumsumFrom]
    · have hstep : cumsumFrom acc (x :: xs) = (acc + x) :: cumsumFrom (acc + x) xs := rfl
      rw [hstep, List.getLastD_cons, ih (acc + x) (acc + x) hxs, List.sum_cons]
      ring

theorem sum_map_mul_const (c : ℚ) : ∀ (l : List ℚ),
    (l.map (fun b => c * b)).sum = c * l.sum := by
  intro l
  induction l with
  | nil => simp
  | cons x xs ih => simp [ih, mul_add]

theorem sum_map_const_val (c : ℚ) : ∀ (l : List ℚ),
    (l.map (fun _ => c)).sum = (l.length : ℚ) * c := by
  intro l
  induction l with
  | nil => simp
  | cons x xs ih =>
    rw [List.map_cons, List.sum_cons, ih, List.length_cons]
    push_cast
    ring

/-- Chebyshev-type bound for a sorted list of nonnegative rationals: the
mean of the `k` smallest elements is at most the overall mean. -/
theorem take_sum_mul_length_le (l : List ℚ) (hsort : l.Sorted (· ≤ ·))
    (k : ℕ) (hk : k ≤ l.length) :
    (l.take k).sum * (l.length : ℚ) ≤ (k : ℚ) * l.sum := by
  have hlen_take : (l.take k).length = k := by
    rw [List.length_take]
    omega
  have hbound : ∀ b ∈ l.drop k, (l.take k).sum ≤ (k : ℚ) * b := by
    intro b hb
    have h1 : ∀ a ∈ l.take k, a ≤ b := fun a ha =>
      hsort.rel_of_mem_take_of_mem_drop ha hb
    have h2 := List.sum_le_card_nsmul (l.take k) b h1
    rwa [hlen_take, nsmul_eq_mul] at h2
  have hsum2 : ((l.drop k).length : ℚ) * (l.take k).sum ≤ (k : ℚ) * (l.drop k).sum := by
    have h1 : ((l.drop k).map (fun _ => (l.take k).sum)).sum
        ≤ ((l.drop k).map (fun b => (k : ℚ) * b)).sum :=
      List.sum_le_sum (fun b hb => hbound b hb)
    rwa [sum_map_const_val, sum_map_mul_const] at h1
  have hsplit : l.sum = (l.take k).sum + (l.drop k).sum := by
    conv_lhs => rw [← List.take_append_drop k l]
    rw [List.sum_append]
  have hlen2 : ((l.drop k).length : ℚ) = (l.length : ℚ) - (k : ℚ) := by
    rw [List.length_drop, Nat.cast_sub hk]
  calc (l.take k).sum * (l.length : ℚ)
      = (l.take k).sum * (k : ℚ) + ((l.drop k).length : ℚ) * (l.take k).sum := by
        rw [hlen2]; ring
    _ ≤ (l.take k).sum * (k : ℚ) + (k : ℚ) * (l.drop k).sum := by linarith [hsum2]
    _ = (k : ℚ) * l.sum := by rw [hsplit]; ring

theorem zip_get {α β : Type} :
    ∀ (l : List α) (l' : List β) (i : ℕ) (h : i < (l.zip l').length)
      (h1 : i < l.length) (h2 : i < l'.length),
      (l.zip l').get ⟨i, h⟩ = (l.get ⟨i, h1⟩, l'.get ⟨i, h2⟩) := by
  intro l
  induction l with
  | nil => intro l' i h h1 h2; simp at h1
  | cons a l ih =>
    intro l' i h h1 h2
    cases l' with
    | nil => simp at h2
    | cons b l' =>
      cases i with
      | zero => rfl
      | succ i =>
        have h' : i < (l.zip l').length := by simpa [List.length_zip] using h
        have h1' : i < l.length := by simpa using h1
        have h2' : i < l'.length := by simpa using h2
        have hstep : ((a :: l).zip (b :: l')).get ⟨i + 1, h⟩
            = (l.zip l').get ⟨i, h'⟩ := rfl
        rw [hstep, ih l' i h' h1' h2']
        rfl

theorem linspace_length (a b : ℚ) (n : ℕ) : (linspace a b n).length = n := by
  unfold linspace
  split <;> simp

theorem linspace_eq (a b : ℚ) (n : ℕ) (hn : 2 ≤ n) :
    linspace a b n = (List.range n).map
      (fun i : ℕ => a + (b - a) * (i : ℚ) / ((n - 1 : ℕ) : ℚ)) := by
  unfold linspace
  rw [if_neg (by omega : ¬ n ≤ 1)]

theorem linspace_get (a b : ℚ) (n : ℕ) (hn : 2 ≤ n) (i : ℕ)
    (h : i < (linspace a b n).length) :
    (linspace a b n).get ⟨i, h⟩ = a + (b - a) * (i : ℚ) / ((n - 1 : ℕ) : ℚ) := by
  rw [List.get_eq_getElem]
  simp only [linspace_eq a b n hn, List.getElem_map, List.getElem_range]

theorem conc_sorted (t : Table) :
    ((produccion_municipios_conc t).map Prod.snd).Sorted (· ≤ ·) := by
  unfold produccion_municipios_conc
  exact List.Pairwise.map Prod.snd (fun a b hab => hab)
    (List.sorted_insertionSort _ _)

theorem conc_nonneg (t : Table) (hpos : ∀ r ∈ t, 0 ≤ r.produccion) :
    ∀ v ∈ (produccion_municipios_conc t).map Prod.snd, 0 ≤ v := by
  intro v hv
  rcases List.mem_map.mp hv with ⟨p, hp, rfl⟩
  unfold produccion_municipios_conc at hp
  rw [List.mem_insertionSort] at hp
  exact groupSum_snd_nonneg t Row.municipio Row.produccion hpos p.2
    (List.mem_map_of_mem Prod.snd hp)

theorem pdiv_of_ne (a b : ℚ) (hb : b ≠ 0) : pdiv a b = .num (a / b) := by
  unfold pdiv
  rw [if_neg hb]

/-- C4 counterexample. On two municipalities with production 100 and 300
the Lorenz series is `[(0, 25%), (100, 100%)]`: its first point carries
the smallest municipality's full share at x = 0, so the series neither
starts at (0,0) nor stays below the diagonal at every x. -/
theorem c4_counterexample :
    ¬ (∀ p ∈ lorenz_data tablaC4, ∃ q, p.2 = PFloat.num q ∧ q ≤ p.1) ∧
    ¬ ((lorenz_data tablaC4).head? = some (0, PFloat.num 0)) := by
  constructor
  · intro hall
    have hmem : ((0 : ℚ), PFloat.num 25) ∈ lorenz_data tablaC4 := by decide
    rcases hall _ hmem with ⟨q, hq, hle⟩
    have h25 : (25 : ℚ) = q := by injection hq
    rw [← h25] at hle
    norm_num at hle
  · intro h
    have hhead : (lorenz_data tablaC4).head? = some (0, PFloat.num 25) := by
      decide
    rw [hhead] at h
    simp at h

/-- C4 amended. With at least two municipality groups and a positive
production total: the perfect-equality reference is the literal diagonal
from (0,0) to (100,100); the empirical Lorenz series does end at
(100,100); and its i-th value is a finite percentage bounded by
`100·(i+1)/N` — the equality diagonal at the fraction of groups actually
accumulated. Because the x axis `linspace(0,100,N)` pairs the i-th value
with `100·i/(N−1)`, the series starts at `(0, share of the smallest
group)` rather than (0,0), and the point-wise bound by the diagonal AT THE
PLOTTED x fails (see the counterexample). -/
theorem c4_amended (t : Table)
    (htot : 0 < ((produccion_municipios_conc t).map Prod.snd).sum)
    (hN : 2 ≤ numGroups t Row.municipio) :
    (lorenz_data t).getLast? = some (100, PFloat.num 100) ∧
    igualdadPerfecta = [(0, 0), (100, 100)] ∧
    (∀ (i : ℕ) (hi : i < (lorenz_data t).length),
      ∃ q, ((lorenz_data t).get ⟨i, hi⟩).2 = PFloat.num q ∧
        q ≤ 100 * ((i : ℚ) + 1) / (numGroups t Row.municipio : ℚ)) := by
  have hNlen : (produccion_municipios_conc t).length = numGroups t Row.municipio := by
    unfold produccion_municipios_conc numGroups groupSum
    rw [List.length_insertionSort, List.length_map]
  have hvals_len : ((produccion_municipios_conc t).map Prod.snd).length
      = numGroups t Row.municipio := by
    rw [List.length_map, hNlen]
  have hvals_ne : (produccion_municipios_conc t).map Prod.snd ≠ [] := by
    intro h
    rw [h] at hvals_len
    simp at hvals_len
    omega
  have htotal_eq : (cumsum ((produccion_municipios_conc t).map Prod.snd)).getLastD 0
      = ((produccion_municipios_conc t).map Prod.snd).sum := by
    unfold cumsum
    rw [cumsumFrom_getLastD _ 0 0 hvals_ne, zero_add]
  have hsum_ne : ((produccion_municipios_conc t).map Prod.snd).sum ≠ 0 :=
    ne_of_gt htot
  have hpct : produccion_acum_pct t
      = (cumsum ((produccion_municipios_conc t).map Prod.snd)).map
          (fun c => (pdiv c ((produccion_municipios_conc t).map Prod.snd).sum).mul100) := by
    show (cumsum ((produccion_municipios_conc t).map Prod.snd)).map
        (fun c => (pdiv c ((cumsum ((produccion_municipios_conc t).map
          Prod.snd)).getLastD 0)).mul100) = _
    simp only [htotal_eq]
  have hpct_len : (produccion_acum_pct t).length
      = ((produccion_municipios_conc t).map Prod.snd).length := by
    rw [hpct, List.length_map, cumsum_length]
  have hlor_len : (lorenz_data t).length
      = ((produccion_municipios_conc t).map Prod.snd).length := by
    unfold lorenz_data
    rw [List.length_zip, linspace_length, hpct_len, Nat.min_self]
  have hN2 : 2 ≤ (produccion_acum_pct t).length := by
    rw [hpct_len, hvals_len]
    exact hN
  -- the y value at index i, as an explicit percentage
  have hyval : ∀ (i : ℕ) (hi : i < (produccion_acum_pct t).length),
      (produccion_acum_pct t).get ⟨i, hi⟩
      = PFloat.num ((((produccion_municipios_conc t).map Prod.snd).take (i+1)).sum
          / ((produccion_municipios_conc t).map Prod.snd).sum * 100) := by
    intro i hi
    have hi' : i < (cumsum ((produccion_municipios_conc t).map Prod.snd)).length := by
      rw [cumsum_length]
      rw [hpct_len] at hi
      exact hi
    have hmap : (produccion_acum_pct t).get ⟨i, hi⟩
        = (pdiv ((cumsum ((produccion_municipios_conc t).map Prod.snd)).get ⟨i, hi'⟩)
            ((produccion_municipios_conc t).map Prod.snd).sum).mul100 := by
      rw [List.get_eq_getElem, List.get_eq_getElem]
      simp only [hpct, List.getElem_map]
    rw [hmap]
    have hcs : (cumsum ((produccion_municipios_conc t).map Prod.snd)).get ⟨i, hi'⟩
        = (((produccion_municipios_conc t).map Prod.snd).take (i+1)).sum := by
      show (cumsumFrom 0 ((produccion_municipios_conc t).map Prod.snd)).get ⟨i, hi'⟩
          = (((produccion_municipios_conc t).map Prod.snd).take (i+1)).sum
      rw [cumsumFrom_get, zero_add]
    rw [hcs, pdiv_of_ne _ _ hsum_ne]
    rfl
  -- the x value at index i
  have hxval : ∀ (i : ℕ) (hi : i < (linspace 0 100 (produccion_acum_pct t).length).length),
      (linspace 0 100 (produccion_acum_pct t).length).get ⟨i, hi⟩
      = 100 * (i : ℚ) / (((produccion_acum_pct t).length - 1 : ℕ) : ℚ) := by
    intro i hi
    rw [linspace_get _ _ _ hN2, zero_add, sub_zero]
  refine ⟨?_, rfl, ?_⟩
  · -- last point is (100, 100%)
    have hlast_idx : (lorenz_data t).length - 1 < (lorenz_data t).length := by
      rw [hlor_len, hvals_len]
      omega
    rw [List.getLast?_eq_getElem?, List.getElem?_eq_getElem hlast_idx]
    have hi1 : (lorenz_data t).length - 1
        < (linspace 0 100 (produccion_acum_pct t).length).length := by
      rw [linspace_length, hpct_len, ← hlor_len]
      exact hlast_idx
    have hi2 : (lorenz_data t).length - 1 < (produccion_acum_pct t).length := by
      rw [hpct_len, ← hlor_len]
      exact hlast_idx
    have hz : (lorenz_data t).get ⟨(lorenz_data t).length - 1, hlast_idx⟩
        = ((linspace 0 100 (produccion_acum_pct t).length).get
            ⟨(lorenz_data t).length - 1, hi1⟩,
          (produccion_acum_pct t).get ⟨(lorenz_data t).length - 1, hi2⟩) :=
      zip_get _ _ _ _ _ _
    have hconv : (lorenz_data t)[(lorenz_data t).length - 1]
        = (lorenz_data t).get ⟨(lorenz_data t).length - 1, hlast_idx⟩ := rfl
    rw [hconv, hz, hxval _ hi1, hyval _ hi2]
    have hNeq : (lorenz_data t).length - 1 = (produccion_acum_pct t).length - 1 := by
      rw [hlor_len, hpct_len]
    have hx100 : (100 : ℚ) * (((lorenz_data t).length - 1 : ℕ) : ℚ)
        / (((produccion_acum_pct t).length - 1 : ℕ) : ℚ) = 100 := by
      rw [hNeq]
      have hne : (((produccion_acum_pct t).length - 1 : ℕ) : ℚ) ≠ 0 := by
        have h2 : (produccion_acum_pct t).length - 1 ≠ 0 := by omega
        exact_mod_cast h2
      rw [mul_div_assoc, div_self hne, mul_one]
    have hy100 : ((((produccion_municipios_conc t).map Prod.snd).take
          ((lorenz_data t).length - 1 + 1)).sum
        / ((produccion_municipios_conc t).map Prod.snd).sum * 100) = 100 := by
      have htake : (lorenz_data t).length - 1 + 1
          = ((produccion_municipios_conc t).map Prod.snd).length := by
        rw [hlor_len]
        rw [hvals_len] at *
        omega
      rw [htake, List.take_length, div_self hsum_ne, one_mul]
    rw [hx100, hy100]
  · -- every y value is a finite percentage below the count-shifted diagonal
    intro i hi
    have hi1 : i < (linspace 0 100 (produccion_acum_pct t).length).length := by
      rw [linspace_length, hpct_len, ← hlor_len]
      exact hi
    have hi2 : i < (produccion_acum_pct t).length := by
      rw [hpct_len, ← hlor_len]
      exact hi
    have hz : (lorenz_data t).get ⟨i, hi⟩
        = ((linspace 0 100 (produccion_acum_pct t).length).get ⟨i, hi1⟩,
          (produccion_acum_pct t).get ⟨i, hi2⟩) :=
      zip_get _ _ _ _ _ _
    rw [hz, hyval _ hi2]
    refine ⟨_, rfl, ?_⟩
    have hk : i + 1 ≤ ((produccion_municipios_conc t).map Prod.snd).length := by
      rw [hvals_len]
      rw [hlor_len, hvals_len] at hi
      omega
    have hcheb := take_sum_mul_length_le
      ((produccion_municipios_conc t).map Prod.snd) (conc_sorted t) (i + 1) hk
    have hNpos : (0 : ℚ) < (((produccion_municipios_conc t).map Prod.snd).length : ℚ) := by
      rw [hvals_len]
      have : 0 < numGroups t Row.municipio := by omega
      exact_mod_cast this
    rw [← hvals_len]
    rw [div_mul_eq_mul_div, div_le_div_iff₀ htot hNpos]
    have hcast : ((i : ℚ) + 1) = ((i + 1 : ℕ) : ℚ) := by push_cast; ring
    rw [hcast]
    nlinarith [hcheb]

theorem c4_witness :
    (lorenz_data tablaC4).getLast? = some (100, PFloat.num 100) :=
  (c4_amended tablaC4 (by decide) (by decide)).1
